import Mathlib

/-!
Verification of the attachment / prompt-assembly / response-parsing pipeline of
the `robotframework-aivision` repository, as a shallow embedding in Lean 4.

Python strings are modelled as Lean `String` (a list of Unicode code points,
matching Python's code-point based `len` and slicing).  Python string
operations used by the source (`strip`, `lower`, `split(sep, 1)`, slicing,
`"\n".join`) are modelled by the `py*` functions below, defined by structural
recursion on the character list so that they evaluate inside the kernel.
File-system reads, the UTF-8 lossy decoder (`bytes.decode("utf-8",
errors="replace")`) and the base64 encoder (`base64.b64encode`) are external
to the repository and are modelled as parameters (`Codec`, `isFile`,
`FileModel`).
-/

/-- Model of Python's `str.strip()` on a character list: drop leading and
trailing characters satisfying `p`. -/
def stripListP (p : Char → Bool) (l : List Char) : List Char :=
  ((l.dropWhile p).reverse.dropWhile p).reverse

/-- Model of Python's `str.strip()` (whitespace modelled as space, tab, CR, LF). -/
def pyStrip (s : String) : String :=
  String.mk (stripListP Char.isWhitespace s.data)

/-- Model of Python's `str.lower()` (ASCII case folding). -/
def pyLower (s : String) : String :=
  String.mk (s.data.map Char.toLower)

/-- Model of Python's slicing `s[:n]` (code-point based). -/
def pyTake (s : String) (n : Nat) : String :=
  String.mk (s.data.take n)

/-- Model of Python's `sep.join(parts)`. -/
def pyJoin (sep : String) : List String → String
  | [] => ""
  | [x] => x
  | x :: y :: xs => x ++ sep ++ pyJoin sep (y :: xs)

/-- Split a character list at the first occurrence of `sep`: returns the part
before and the part after the first occurrence, or `none` if `sep` does not
occur. -/
def splitOnceChars (sep : List Char) : List Char → Option (List Char × List Char)
  | [] => none
  | a :: as =>
    if sep.isPrefixOf (a :: as) then some ([], (a :: as).drop sep.length)
    else
      match splitOnceChars sep as with
      | none => none
      | some (pre, post) => some (a :: pre, post)

/-- Model of Python's `s.split(sep, 1)`: `none` when `sep` is absent,
otherwise the text before and after the first occurrence of `sep`. -/
def splitOnce (s sep : String) : Option (String × String) :=
  match splitOnceChars sep.data s.data with
  | none => none
  | some (pre, post) => some (String.mk pre, String.mk post)

/-- Model of Python's `sub in s` (substring containment). -/
def pyContains (s sub : String) : Bool :=
  (splitOnce s sub).isSome

/-- Split a character list on a separator character (model of `str.split(c)`
restricted to what the path helpers need). -/
def splitChar (c : Char) : List Char → List (List Char)
  | [] => [[]]
  | a :: as =>
    let r := splitChar c as
    if a == c then [] :: r
    else
      match r with
      | [] => [[a]]
      | h :: t => (a :: h) :: t

/-- Model of `os.path.basename` (POSIX separators). -/
def basename (p : String) : String :=
  String.mk ((splitChar '/' p.data).getLastD [])

/-- Model of `os.path.splitext(p)[1]`: the extension of the final path
component, from its last dot, empty when the component has no dot or only
leading dots before it. -/
def splitext_ext (p : String) : String :=
  match splitChar '.' (basename p).data with
  | [] => ""
  | [_] => ""
  | parts =>
    if parts.dropLast.all (fun q => q.isEmpty) then ""
    else String.mk ('.' :: parts.getLastD [])

/- ----------------------------------------------------------------------
Response parsing (src/AIVision/genai.py, extract_result_and_explanation_
from_response) and verdict assertion (src/AIVision/library.py, _assert_result).
---------------------------------------------------------------------- -/

/-- Embedding of `GenAI.extract_result_and_explanation_from_response`:
split on the first `"RESULT:"`; if absent return `("fail", response)`;
otherwise split the stripped remainder on the first `"EXPLANATION:"`;
if absent return the stripped remainder as outcome token and the whole raw
response as explanation, otherwise both parts stripped. -/
def extract_result_and_explanation_from_response (response : String) : String × String :=
  match splitOnce response "RESULT:" with
  | none => ("fail", response)
  | some (_, after_result) =>
    match splitOnce (pyStrip after_result) "EXPLANATION:" with
    | none => (pyStrip (pyStrip after_result), response)
    | some (result_part, explanation_part) => (pyStrip result_part, pyStrip explanation_part)

/-- Verdict outcome of `AIVision._assert_result`. -/
inductive Outcome where
  | Pass
  | Fail
deriving DecidableEq

/-- Embedding of `AIVision._assert_result`: passes iff the extracted outcome
token is non-empty (Python truthiness) and equals `"pass"` case-insensitively;
every other token raises `AssertionError` (outcome `Fail`). -/
def assert_result_outcome (response : String) : Outcome :=
  if (extract_result_and_explanation_from_response response).1 ≠ ""
      ∧ pyLower (extract_result_and_explanation_from_response response).1 = "pass" then
    Outcome.Pass
  else Outcome.Fail

/- ----------------------------------------------------------------------
Content model shared by src/AIVision/attachments.py and src/AIVision/genai.py.
A content item is one entry of a message's "content" list:
`{"type": "text", "text": t}` or `{"type": "image", "image_path": p}`.
---------------------------------------------------------------------- -/

inductive ContentItem where
  | text (t : String)
  | image (image_path : String)
deriving DecidableEq

/-- A message `{"role": r, "content": items}`. -/
structure Message where
  role : String
  content : List ContentItem
deriving DecidableEq

/- ----------------------------------------------------------------------
AttachmentProcessor (src/AIVision/attachments.py).
---------------------------------------------------------------------- -/

/-- Budgets and capability fixed at `AttachmentProcessor.__init__`. -/
structure AttachmentProcessor where
  supports_vision : Bool
  max_bytes : Nat
  max_chars : Nat
  pdf_max_pages : Nat

/-- The two external byte-to-string encoders used by the processor:
`decode` models `bytes.decode("utf-8", errors="replace")` and `b64` models
`base64.b64encode(data).decode("ascii")`.  Both are external library
functions, so they are parameters of the embedding; the processor only
chooses which byte slice is passed to them. -/
structure Codec where
  decode : List Nat → String
  b64 : List Nat → String

/-- Model of one attachment file as the processor can observe it.
`bytes` are the raw file contents (`os.path.getsize` = its length).
`pdfText` models PyMuPDF text extraction: `none` when the `fitz` import or
any extraction call raises (the source then returns `("", False, False)`),
`some pages` for a successful open with `page.get_text() or ""` per page.
`pdfPages` models rasterization: `none` when the import, open, or any
pixmap save raises (the source then returns `[]`), `some n` for a document
with `n` pages that renders successfully. `tempDir` is the fresh temporary
directory used for rendered page files. -/
structure FileModel where
  path : String
  bytes : List Nat
  pdfText : Option (List String)
  pdfPages : Option Nat
  tempDir : String

/-- Embedding of the fixed extension→MIME table `_guess_mime_type`. -/
def guess_mime_type (ext : String) : String :=
  if ext = ".txt" then "text/plain"
  else if ext = ".log" then "text/plain"
  else if ext = ".pdf" then "application/pdf"
  else if ext = ".md" then "text/markdown"
  else if ext = ".json" then "application/json"
  else if ext = ".yaml" then "application/x-yaml"
  else if ext = ".yml" then "application/x-yaml"
  else if ext = ".xml" then "application/xml"
  else if ext = ".csv" then "text/csv"
  else if ext = ".py" then "text/x-python"
  else if ext = ".js" then "text/javascript"
  else if ext = ".ts" then "text/typescript"
  else if ext = ".java" then "text/x-java-source"
  else if ext = ".c" then "text/x-c"
  else if ext = ".h" then "text/x-c"
  else if ext = ".cpp" then "text/x-c"
  else if ext = ".hpp" then "text/x-c"
  else if ext = ".rs" then "text/x-rust"
  else if ext = ".go" then "text/x-go"
  else if ext = ".rb" then "text/x-ruby"
  else if ext = ".php" then "text/x-php"
  else if ext = ".sh" then "text/x-shellscript"
  else "text/plain"

/-- Embedding of `_format_attachment_header`. -/
def format_attachment_header (filename mime_type : String) (size : Nat)
    (kind : String) (truncated : Bool) : String :=
  "ATTACHMENT: " ++ filename ++ " (mime: " ++ mime_type ++ ", size: "
    ++ toString size ++ " bytes, format: " ++ kind
    ++ (if truncated then ", truncated" else "") ++ ")\n"

/-- Embedding of `_read_file_bytes`: read up to `max_bytes + 1` bytes; the
read is truncated when more than `max_bytes` bytes came back, in which case
the data is cut to `max_bytes`. -/
def read_file_bytes (bytes : List Nat) (max_bytes : Nat) : List Nat × Bool :=
  if max_bytes < (bytes.take (max_bytes + 1)).length then
    ((bytes.take (max_bytes + 1)).take max_bytes, true)
  else (bytes.take (max_bytes + 1), false)

/-- Embedding of `_read_text_file`: the truncated byte slice decoded with
lossy UTF-8. -/
def read_text_file (C : Codec) (bytes : List Nat) (max_bytes : Nat) : String × Bool :=
  (C.decode (read_file_bytes bytes max_bytes).1, (read_file_bytes bytes max_bytes).2)

/-- Embedding of `_read_binary_base64`: the truncated byte slice base64
encoded. -/
def read_binary_base64 (C : Codec) (bytes : List Nat) (max_bytes : Nat) : String × Bool :=
  (C.b64 (read_file_bytes bytes max_bytes).1, (read_file_bytes bytes max_bytes).2)

/-- The page-accumulation loop of `_read_pdf_text`: skip empty page texts,
append each non-empty one to the chunk list while keeping a running character
count, and stop (keeping the page that crossed the line) as soon as the count
reaches `max_chars`. -/
def collectChunks (max_chars : Nat) : List String → Nat → List String
  | [], _ => []
  | p :: ps, total =>
    if p = "" then collectChunks max_chars ps total
    else if max_chars ≤ total + p.data.length then [p]
    else p :: collectChunks max_chars ps (total + p.data.length)

/-- Embedding of `_read_pdf_text`: `(text, truncated, ok)`.  A failing
library import or extraction (`doc = none`) yields `("", false, false)`; otherwise
the collected page texts are joined with a newline, and the join is hard-cut
to `max_chars` characters when it is longer than that. -/
def read_pdf_text (max_chars : Nat) (doc : Option (List String)) : String × Bool × Bool :=
  match doc with
  | none => ("", false, false)
  | some pages =>
    if max_chars < (pyJoin "\n" (collectChunks max_chars pages 0)).data.length then
      (pyTake (pyJoin "\n" (collectChunks max_chars pages 0)) max_chars, true, true)
    else (pyJoin "\n" (collectChunks max_chars pages 0), false, true)

/-- Embedding of `_render_pdf_to_images`: one PNG path per page, in page
order, for the first `min(len(doc), pdf_max_pages)` pages; any failure
(`doc = none`) yields `[]`. -/
def render_pdf_to_images (pdf_max_pages : Nat) (doc : Option Nat) (temp_dir : String) : List String :=
  match doc with
  | none => []
  | some page_total =>
    (List.range (min page_total pdf_max_pages)).map
      (fun index => temp_dir ++ "/pdf_page_" ++ toString (index + 1) ++ ".png")

/-- Embedding of `prepare_attachment_content`.  Locals of the source
(`size`, `filename`, `ext`, `mime_type`, the read results and headers) are
inlined; the branch structure is the source's: PDF extension first tries
extracted text (`ok and text.strip()`), then vision-gated rasterization
(`if image_paths:`), then the base64 fallback; every other extension is read
as text. -/
def prepare_attachment_content (P : AttachmentProcessor) (C : Codec) (f : FileModel) : List ContentItem :=
  if pyLower (splitext_ext f.path) = ".pdf" then
    if (read_pdf_text P.max_chars f.pdfText).2.2
        ∧ pyStrip (read_pdf_text P.max_chars f.pdfText).1 ≠ "" then
      [ContentItem.text (format_attachment_header (basename f.path)
          (guess_mime_type (pyLower (splitext_ext f.path))) f.bytes.length
          "pdf text" (read_pdf_text P.max_chars f.pdfText).2.1
        ++ pyStrip (read_pdf_text P.max_chars f.pdfText).1)]
    else if (if P.supports_vision then
        render_pdf_to_images P.pdf_max_pages f.pdfPages f.tempDir else []) ≠ [] then
      ContentItem.text (format_attachment_header (basename f.path)
          (guess_mime_type (pyLower (splitext_ext f.path))) f.bytes.length
          "pdf images" false
        ++ "[PDF rendered to "
        ++ toString (if P.supports_vision then
              render_pdf_to_images P.pdf_max_pages f.pdfPages f.tempDir else []).length
        ++ " images]")
        :: (if P.supports_vision then
              render_pdf_to_images P.pdf_max_pages f.pdfPages f.tempDir else []).map
            ContentItem.image
    else
      [ContentItem.text (format_attachment_header (basename f.path)
          (guess_mime_type (pyLower (splitext_ext f.path))) f.bytes.length
          "base64" (read_binary_base64 C f.bytes P.max_bytes).2
        ++ (read_binary_base64 C f.bytes P.max_bytes).1)]
  else
    [ContentItem.text (format_attachment_header (basename f.path)
        (guess_mime_type (pyLower (splitext_ext f.path))) f.bytes.length
        "text" (read_text_file C f.bytes P.max_bytes).2
      ++ (read_text_file C f.bytes P.max_bytes).1)]

/- ----------------------------------------------------------------------
Platform configuration (src/AILibrary/platforms.py, src/AIVision/genai.py).
---------------------------------------------------------------------- -/

/-- One `Platforms` enum member's value dictionary, plus its `name`. -/
structure PlatformSpec where
  name : String
  default_model : String
  default_base_url : String
  api_key_required : Bool
  supports_vision : Bool
deriving DecidableEq

def Ollama : PlatformSpec :=
  ⟨"Ollama", "qwen3-coder:480b-cloud", "http://localhost:11434/v1", false, true⟩

def DockerModel : PlatformSpec :=
  ⟨"DockerModel", "ai/qwen3-vl:8B-Q8_K_XL", "http://localhost:12434/engines/v1", false, true⟩

def Perplexity : PlatformSpec :=
  ⟨"Perplexity", "sonar-pro", "https://api.perplexity.ai", true, true⟩

/-- The attributes `AIPlatform.__init__` sets. `Option` models Python `None`
(the source's falsy-`or` fallbacks are taken on `None`). -/
structure AIPlatformCfg where
  base_url : Option String
  model : Option String
  detail : Option String
  api_key : Option String
  supports_vision : Bool
deriving DecidableEq

/-- The `AIPlatform` class default for `image_detail`
(`DEFAULT_IMG_DETAIL = "high"`): the value `detail` gets when the caller
omits the `image_detail` argument. -/
def AIPlatform_DEFAULT_IMG_DETAIL : Option String := some "high"

/-- Embedding of `AIPlatform.__init__`: fall back to the platform defaults
for `base_url`/`model`, store `image_detail` as `detail` unchanged, read
`supports_vision` from the platform, and fail when the platform requires an
API key that was not given. -/
def AIPlatform_init (platform : Option PlatformSpec)
    (base_url api_key model image_detail : Option String) : Except String AIPlatformCfg :=
  let cfg : AIPlatformCfg :=
    ⟨(match base_url with
      | some b => some b
      | none => platform.map (fun pl => pl.default_base_url)),
     (match model with
      | some m => some m
      | none => platform.map (fun pl => pl.default_model)),
     image_detail,
     api_key,
     (match platform with
      | some pl => pl.supports_vision
      | none => false)⟩
  match platform with
  | some pl =>
    if pl.api_key_required ∧ api_key = none then
      Except.error (pl.name ++ " requires an API key")
    else Except.ok cfg
  | none => Except.ok cfg

/-- The `GenAI.__init__` default for its own `image_detail` parameter
(`image_detail: str = None`), which it forwards to `AIPlatform` explicitly. -/
def GenAI_default_image_detail : Option String := none

/-- Embedding of the platform-configuration part of `GenAI.__init__`:
substitute the dummy `"ollama"` API key for the Ollama platform, then build
the `AIPlatform` configuration, forwarding `image_detail` verbatim. -/
def GenAI_init (platform : Option PlatformSpec)
    (base_url api_key model image_detail : Option String) : Except String AIPlatformCfg :=
  AIPlatform_init platform base_url
    (if platform = some Ollama ∧ api_key = none then some "ollama" else api_key)
    model image_detail

/- ----------------------------------------------------------------------
Prompt assembly and wire formatting (src/AIVision/genai.py).
---------------------------------------------------------------------- -/

/-- The image-appending loop of `_prepare_prompt`: for each path, raise
`FileNotFoundError(f"Image not found: {img_path}")` unless `os.path.isfile`
holds, else append an image content item.  `isFile` is the file-system
predicate. -/
def addImages (isFile : String → Bool) : List String → Except String (List ContentItem)
  | [] => Except.ok []
  | p :: ps =>
    if isFile p then
      match addImages isFile ps with
      | Except.ok rest => Except.ok (ContentItem.image p :: rest)
      | Except.error e => Except.error e
    else Except.error ("Image not found: " ++ p)

/-- Embedding of `GenAI._prepare_prompt`: a single user message holding the
system prompt and the instruction as text items, followed — only when
`image_paths` is non-empty (Python truthiness, also covering `None`) and the
platform supports vision — by the validated image items. -/
def prepare_prompt (system_prompt instruction : String) (supports_vision : Bool)
    (isFile : String → Bool) (image_paths : List String) : Except String (List Message) :=
  if image_paths ≠ [] ∧ supports_vision then
    match addImages isFile image_paths with
    | Except.ok imgs =>
      Except.ok [⟨"user", [ContentItem.text system_prompt, ContentItem.text instruction] ++ imgs⟩]
    | Except.error e => Except.error e
  else
    Except.ok [⟨"user", [ContentItem.text system_prompt, ContentItem.text instruction]⟩]

/-- One entry of the OpenAI wire format produced by
`_format_messages_for_openai`. -/
inductive WireItem where
  | text (t : String)
  | image_url (url : String) (detail : Option String)
deriving DecidableEq

/-- A wire message `{"role": r, "content": items}`. -/
structure WireMessage where
  role : String
  content : List WireItem
deriving DecidableEq

/-- Rendering of one content item by `_format_messages_for_openai`: an image
item is kept only when its path is truthy and the platform supports vision,
becoming an `image_url` entry whose URL is the base64 data URI (`encode`
models `_encode_image_to_base64`, which reads the file) and whose detail is
the platform's `detail`; a text item becomes a text entry. -/
def format_item (supports_vision : Bool) (detail : Option String)
    (encode : String → String) : ContentItem → List WireItem
  | ContentItem.image p =>
    if p ≠ "" ∧ supports_vision then [WireItem.image_url (encode p) detail] else []
  | ContentItem.text t => [WireItem.text t]

/-- Embedding of `_format_messages_for_openai`. -/
def format_messages_for_openai (supports_vision : Bool) (detail : Option String)
    (encode : String → String) (messages : List Message) : List WireMessage :=
  messages.map (fun m => ⟨m.role, m.content.flatMap (format_item supports_vision detail encode)⟩)

/- ----------------------------------------------------------------------
Idempotence of stripping, needed because the source applies `.strip()` twice
to the outcome token on the partial-parse path.
---------------------------------------------------------------------- -/

theorem dropWhile_head_false {p : Char → Bool} :
    ∀ (l : List Char) (a : Char) (as : List Char), l.dropWhile p = a :: as → p a = false := by
  intro l
  induction l with
  | nil => intro a as h; simp [List.dropWhile] at h
  | cons x xs ih =>
    intro a as h
    rw [List.dropWhile_cons] at h
    by_cases hx : p x
    · rw [if_pos hx] at h
      exact ih a as h
    · rw [if_neg hx] at h
      cases h
      exact Bool.of_not_eq_true hx

theorem dropWhile_self {p : Char → Bool} (l : List Char) :
    (l.dropWhile p).dropWhile p = l.dropWhile p := by
  cases h : l.dropWhile p with
  | nil => simp
  | cons a as =>
    have ha := dropWhile_head_false l a as h
    simp [List.dropWhile_cons, ha]

theorem getLastD_dropWhile {p : Char → Bool} (d : Char) :
    ∀ (l : List Char), l.dropWhile p ≠ [] → (l.dropWhile p).getLastD d = l.getLastD d := by
  intro l
  induction l with
  | nil => simp [List.dropWhile]
  | cons x xs ih =>
    intro h
    rw [List.dropWhile_cons]
    rw [List.dropWhile_cons] at h
    by_cases hx : p x
    · rw [if_pos hx] at h ⊢
      have hxs : xs ≠ [] := by
        intro he
        rw [he] at h
        simp [List.dropWhile] at h
      rw [ih h]
      cases xs with
      | nil => exact absurd rfl hxs
      | cons y ys => simp [List.getLastD_cons]
    · rw [if_neg hx]

theorem stripListP_idem (p : Char → Bool) (l : List Char) :
    stripListP p (stripListP p l) = stripListP p l := by
  by_cases hBne : (l.dropWhile p).reverse.dropWhile p = []
  · unfold stripListP
    rw [hBne]
    simp [List.dropWhile]
  · -- `l.dropWhile p` is nonempty and its head `a` fails `p`
    have hAne : l.dropWhile p ≠ [] := by
      intro he
      apply hBne
      rw [he]
      simp [List.dropWhile]
    obtain ⟨a, as, hA⟩ : ∃ a as, l.dropWhile p = a :: as := by
      cases hA : l.dropWhile p with
      | nil => exact absurd hA hAne
      | cons a as => exact ⟨a, as, rfl⟩
    have haf : p a = false := dropWhile_head_false l a as hA
    -- the stripped list ends with `a`
    have hlastB : ((l.dropWhile p).reverse.dropWhile p).getLastD 'x' = a := by
      rw [getLastD_dropWhile 'x' _ hBne, hA]
      simp
    -- hence the reversed stripped list starts with `a`, which fails `p`
    obtain ⟨t, ht⟩ : ∃ t, ((l.dropWhile p).reverse.dropWhile p).reverse = a :: t := by
      cases hrev : ((l.dropWhile p).reverse.dropWhile p).reverse with
      | nil =>
        exact absurd (by simpa using congrArg List.reverse hrev) hBne
      | cons c cs =>
        refine ⟨cs, ?_⟩
        have hc : ((l.dropWhile p).reverse.dropWhile p).reverse.headD 'x' = a := by
          rw [List.headD_eq_head?_getD, List.head?_reverse, ← List.getLastD_eq_getLast?, hlastB]
        rw [hrev] at hc
        simp at hc
        rw [hc]
    -- compute the outer strip
    unfold stripListP
    rw [ht]
    have h1 : (a :: t).dropWhile p = a :: t := by simp [List.dropWhile_cons, haf]
    rw [h1, ← ht, List.reverse_reverse, dropWhile_self]

theorem pyStrip_idem (s : String) : pyStrip (pyStrip s) = pyStrip s := by
  unfold pyStrip
  exact congrArg String.mk (stripListP_idem Char.isWhitespace s.data)


example : extract_result_and_explanation_from_response "no markers here" = ("fail", "no markers here") := by decide
example : extract_result_and_explanation_from_response "RESULT: PASS" = ("PASS", "RESULT: PASS") := by decide
example : extract_result_and_explanation_from_response "RESULT: pass\nEXPLANATION: ok" = ("pass", "ok") := by decide
example : assert_result_outcome "RESULT: PASS" = Outcome.Pass := by decide
example : assert_result_outcome "RESULT:" = Outcome.Fail := by decide


example :
    prepare_attachment_content ⟨false, 100, 2, 3⟩ ⟨fun _ => "", fun _ => ""⟩
      ⟨"f.pdf", [], some ["a bc"], none, "T"⟩
    = [ContentItem.text "ATTACHMENT: f.pdf (mime: application/pdf, size: 0 bytes, format: pdf text, truncated)\na"] := by
  decide

example :
    prepare_attachment_content ⟨true, 100, 100, 1⟩ ⟨fun _ => "", fun _ => ""⟩
      ⟨"f.pdf", [], some [], some 2, "T"⟩
    = [ContentItem.text "ATTACHMENT: f.pdf (mime: application/pdf, size: 0 bytes, format: pdf images)\n[PDF rendered to 1 images]",
       ContentItem.image "T/pdf_page_1.png"] := by
  decide

/- ----------------------------------------------------------------------
Helper lemmas about the embedding.
---------------------------------------------------------------------- -/

/-- `_read_file_bytes` returns exactly the first `max_bytes` bytes, with the
truncation flag set iff the file is longer than `max_bytes`. -/
theorem read_file_bytes_eq (bytes : List Nat) (mb : Nat) :
    read_file_bytes bytes mb = (bytes.take mb, decide (mb < bytes.length)) := by
  unfold read_file_bytes
  by_cases h : mb < bytes.length
  · rw [if_pos]
    · rw [List.take_take, Nat.min_eq_left (Nat.le_succ mb), decide_eq_true h]
    · rw [List.length_take]
      exact lt_min (Nat.lt_succ_self mb) h
  · have hle : bytes.length ≤ mb := Nat.le_of_not_lt h
    rw [if_neg]
    · rw [List.take_of_length_le (Nat.le_succ_of_le hle), List.take_of_length_le hle,
        decide_eq_false h]
    · rw [List.length_take]
      exact fun hc => h (lt_of_lt_of_le hc (min_le_right _ _))

/-- The non-PDF branch of `prepare_attachment_content`: a single text block
with kind `"text"`, the original byte size in the header, the truncation flag
iff the byte budget was exceeded, and the first `max_bytes` bytes decoded. -/
theorem prepare_text_branch (P : AttachmentProcessor) (C : Codec) (f : FileModel)
    (hext : pyLower (splitext_ext f.path) ≠ ".pdf") :
    prepare_attachment_content P C f
      = [ContentItem.text (format_attachment_header (basename f.path)
          (guess_mime_type (pyLower (splitext_ext f.path))) f.bytes.length
          "text" (decide (P.max_bytes < f.bytes.length))
        ++ C.decode (f.bytes.take P.max_bytes))] := by
  unfold prepare_attachment_content
  rw [if_neg hext]
  unfold read_text_file
  rw [read_file_bytes_eq]

/-- The PDF-rasterization branch of `prepare_attachment_content`: when the
text branch does not fire, vision is supported and at least one page renders,
the result is the summary text block (with truncation flag `false`) followed
by one image block per rendered page, capped at `pdf_max_pages`. -/
theorem prepare_pdf_images_branch (P : AttachmentProcessor) (C : Codec) (f : FileModel)
    (n : Nat)
    (hext : pyLower (splitext_ext f.path) = ".pdf")
    (hnotext : pyStrip (read_pdf_text P.max_chars f.pdfText).1 = "")
    (hsv : P.supports_vision = true)
    (hpp : f.pdfPages = some n)
    (hmin : 0 < min n P.pdf_max_pages) :
    prepare_attachment_content P C f
      = ContentItem.text (format_attachment_header (basename f.path)
          (guess_mime_type (pyLower (splitext_ext f.path))) f.bytes.length
          "pdf images" false
        ++ "[PDF rendered to " ++ toString (min n P.pdf_max_pages) ++ " images]")
        :: (List.range (min n P.pdf_max_pages)).map
            (fun index => ContentItem.image (f.tempDir ++ "/pdf_page_" ++ toString (index + 1) ++ ".png")) := by
  unfold prepare_attachment_content
  rw [if_pos hext, if_neg (fun hc => hc.2 hnotext), hsv, if_pos rfl, hpp]
  unfold render_pdf_to_images
  have hne : (List.range (min n P.pdf_max_pages)).map
      (fun index => f.tempDir ++ "/pdf_page_" ++ toString (index + 1) ++ ".png") ≠ [] := by
    rw [Ne, List.map_eq_nil_iff, List.range_eq_nil]
    omega
  rw [if_pos hne, List.length_map, List.length_range, List.map_map]
  rfl

/-- The base64 fallback of `prepare_attachment_content`: when the text branch
does not fire and no image is rendered, the result is one text block of kind
`"base64"` holding the base64 encoding of the first `max_bytes` bytes. -/
theorem prepare_base64_branch (P : AttachmentProcessor) (C : Codec) (f : FileModel)
    (hext : pyLower (splitext_ext f.path) = ".pdf")
    (hno : ¬((read_pdf_text P.max_chars f.pdfText).2.2
        ∧ pyStrip (read_pdf_text P.max_chars f.pdfText).1 ≠ ""))
    (hnoimg : (if P.supports_vision then
        render_pdf_to_images P.pdf_max_pages f.pdfPages f.tempDir else []) = []) :
    prepare_attachment_content P C f
      = [ContentItem.text (format_attachment_header (basename f.path)
          (guess_mime_type (pyLower (splitext_ext f.path))) f.bytes.length
          "base64" (decide (P.max_bytes < f.bytes.length))
        ++ C.b64 (f.bytes.take P.max_bytes))] := by
  unfold prepare_attachment_content
  rw [if_pos hext, if_neg hno, if_neg (fun hc => hc hnoimg)]
  unfold read_binary_base64
  rw [read_file_bytes_eq]

/-- The PDF-text branch of `prepare_attachment_content`, stated for a
successful extraction (`pdfText = some pages`) whose joined text overflows
`max_chars`: the result is one text block of kind `"pdf text"` with the
truncation flag and the stripped hard-cut text as body. -/
theorem prepare_pdf_text_truncated_branch (P : AttachmentProcessor) (C : Codec) (f : FileModel)
    (pages : List String)
    (hext : pyLower (splitext_ext f.path) = ".pdf")
    (hpt : f.pdfText = some pages)
    (hlen : P.max_chars < (pyJoin "\n" (collectChunks P.max_chars pages 0)).data.length)
    (hbody : pyStrip (pyTake (pyJoin "\n" (collectChunks P.max_chars pages 0)) P.max_chars) ≠ "") :
    prepare_attachment_content P C f
      = [ContentItem.text (format_attachment_header (basename f.path)
          (guess_mime_type (pyLower (splitext_ext f.path))) f.bytes.length
          "pdf text" true
        ++ pyStrip (pyTake (pyJoin "\n" (collectChunks P.max_chars pages 0)) P.max_chars))] := by
  have hr : read_pdf_text P.max_chars f.pdfText
      = (pyTake (pyJoin "\n" (collectChunks P.max_chars pages 0)) P.max_chars, true, true) := by
    rw [hpt]
    show (if P.max_chars < (pyJoin "\n" (collectChunks P.max_chars pages 0)).data.length then
        (pyTake (pyJoin "\n" (collectChunks P.max_chars pages 0)) P.max_chars, true, true)
      else (pyJoin "\n" (collectChunks P.max_chars pages 0), false, true))
      = (pyTake (pyJoin "\n" (collectChunks P.max_chars pages 0)) P.max_chars, true, true)
    rw [if_pos hlen]
  unfold prepare_attachment_content
  rw [if_pos hext, hr, if_pos ⟨rfl, hbody⟩]

/-- `_read_pdf_text` on a successful extraction: `ok = true`, the truncation
flag is exactly "the joined text is longer than `max_chars`", and the text is
the join, hard-cut when that flag holds. -/
theorem read_pdf_text_some_eq (mc : Nat) (pages : List String) :
    read_pdf_text mc (some pages)
      = (if mc < (pyJoin "\n" (collectChunks mc pages 0)).data.length then
           pyTake (pyJoin "\n" (collectChunks mc pages 0)) mc
         else pyJoin "\n" (collectChunks mc pages 0),
         decide (mc < (pyJoin "\n" (collectChunks mc pages 0)).data.length), true) := by
  show (if mc < (pyJoin "\n" (collectChunks mc pages 0)).data.length then
      (pyTake (pyJoin "\n" (collectChunks mc pages 0)) mc, true, true)
    else (pyJoin "\n" (collectChunks mc pages 0), false, true)) = _
  by_cases h : mc < (pyJoin "\n" (collectChunks mc pages 0)).data.length
  · rw [if_pos h, if_pos h, decide_eq_true h]
  · rw [if_neg h, if_neg h, decide_eq_false h]

/-- The PDF-text branch of `prepare_attachment_content` in general form: one
`"pdf text"` block whose truncation flag is exactly "the joined extracted
text overflows `max_chars`". -/
theorem prepare_pdf_text_branch (P : AttachmentProcessor) (C : Codec) (f : FileModel)
    (pages : List String)
    (hext : pyLower (splitext_ext f.path) = ".pdf")
    (hpt : f.pdfText = some pages)
    (hbody : pyStrip (read_pdf_text P.max_chars f.pdfText).1 ≠ "") :
    prepare_attachment_content P C f
      = [ContentItem.text (format_attachment_header (basename f.path)
          (guess_mime_type (pyLower (splitext_ext f.path))) f.bytes.length
          "pdf text"
          (decide (P.max_chars < (pyJoin "\n" (collectChunks P.max_chars pages 0)).data.length))
        ++ pyStrip (read_pdf_text P.max_chars f.pdfText).1)] := by
  have hok : (read_pdf_text P.max_chars f.pdfText).2.2 = true := by
    rw [hpt, read_pdf_text_some_eq]
  have htr : (read_pdf_text P.max_chars f.pdfText).2.1
      = decide (P.max_chars < (pyJoin "\n" (collectChunks P.max_chars pages 0)).data.length) := by
    rw [hpt, read_pdf_text_some_eq]
  unfold prepare_attachment_content
  rw [if_pos hext, if_pos ⟨hok, hbody⟩, htr]

/-- Every item emitted by `format_item` is either a text entry, or — only
when vision is supported — an `image_url` entry carrying the platform
detail. -/
theorem format_item_spec (sv : Bool) (detail : Option String) (encode : String → String)
    (ci : ContentItem) (w : WireItem) (hw : w ∈ format_item sv detail encode ci) :
    (∃ t, w = WireItem.text t) ∨ (sv = true ∧ ∃ u, w = WireItem.image_url u detail) := by
  cases ci with
  | text t =>
    left
    simp only [format_item, List.mem_singleton] at hw
    exact ⟨t, hw⟩
  | image p =>
    by_cases hc : p ≠ "" ∧ sv
    · right
      simp only [format_item, if_pos hc, List.mem_singleton] at hw
      exact ⟨hc.2, encode p, hw⟩
    · simp only [format_item, if_neg hc, List.not_mem_nil] at hw

/-- Locating a wire item inside `format_messages_for_openai`: it comes from
rendering some content item of some input message. -/
theorem mem_format_messages (sv : Bool) (detail : Option String) (encode : String → String)
    (msgs : List Message) (wm : WireMessage) (hwm : wm ∈ format_messages_for_openai sv detail encode msgs)
    (it : WireItem) (hit : it ∈ wm.content) :
    ∃ ci, it ∈ format_item sv detail encode ci := by
  unfold format_messages_for_openai at hwm
  obtain ⟨m, _, rfl⟩ := List.mem_map.mp hwm
  simp only [List.mem_flatMap] at hit
  obtain ⟨ci, _, hci⟩ := hit
  exact ⟨ci, hci⟩

/-- With vision unsupported, `prepare_attachment_content` emits only text
blocks. -/
theorem attachment_text_only_without_vision (mb mc pmp : Nat) (C : Codec) (f : FileModel)
    (it : ContentItem) (hit : it ∈ prepare_attachment_content ⟨false, mb, mc, pmp⟩ C f) :
    ∃ t, it = ContentItem.text t := by
  unfold prepare_attachment_content at hit
  simp only [show (⟨false, mb, mc, pmp⟩ : AttachmentProcessor).supports_vision = false from rfl,
    if_false, Bool.false_eq_true] at hit
  by_cases h1 : pyLower (splitext_ext f.path) = ".pdf"
  · rw [if_pos h1] at hit
    by_cases h2 : (read_pdf_text mc f.pdfText).2.2 ∧ pyStrip (read_pdf_text mc f.pdfText).1 ≠ ""
    · rw [if_pos h2] at hit
      rw [List.mem_singleton] at hit
      exact ⟨_, hit⟩
    · rw [if_neg h2] at hit
      rw [if_neg (by simp)] at hit
      rw [List.mem_singleton] at hit
      exact ⟨_, hit⟩
  · rw [if_neg h1] at hit
    rw [List.mem_singleton] at hit
    exact ⟨_, hit⟩

/-- `prepare_attachment_content` never returns an empty block list. -/
theorem prepare_attachment_content_ne_nil (P : AttachmentProcessor) (C : Codec) (f : FileModel) :
    prepare_attachment_content P C f ≠ [] := by
  unfold prepare_attachment_content
  by_cases h1 : pyLower (splitext_ext f.path) = ".pdf"
  · rw [if_pos h1]
    by_cases h2 : (read_pdf_text P.max_chars f.pdfText).2.2
        ∧ pyStrip (read_pdf_text P.max_chars f.pdfText).1 ≠ ""
    · rw [if_pos h2]; simp
    · rw [if_neg h2]
      by_cases h3 : (if P.supports_vision then
          render_pdf_to_images P.pdf_max_pages f.pdfPages f.tempDir else []) ≠ []
      · rw [if_pos h3]; simp
      · rw [if_neg h3]; simp
  · rw [if_neg h1]; simp

/-- All-existing image paths make `addImages` succeed with one image item per
path, in order. -/
theorem addImages_ok (isFile : String → Bool) :
    ∀ ps : List String, (∀ p ∈ ps, isFile p = true) →
      addImages isFile ps = Except.ok (ps.map ContentItem.image) := by
  intro ps
  induction ps with
  | nil => intro _; rfl
  | cons a as ih =>
    intro h
    have ha : isFile a = true := h a (List.mem_cons_self a as)
    have has : ∀ p ∈ as, isFile p = true := fun p hp => h p (List.mem_cons_of_mem a hp)
    unfold addImages
    rw [if_pos ha, ih has]
    rfl

/-- A missing image path makes `addImages` fail, naming a missing path. -/
theorem addImages_err (isFile : String → Bool) :
    ∀ ps : List String, (∃ p ∈ ps, isFile p = false) →
      ∃ q ∈ ps, isFile q = false ∧ addImages isFile ps = Except.error ("Image not found: " ++ q) := by
  intro ps
  induction ps with
  | nil => intro ⟨p, hp, _⟩; exact absurd hp (List.not_mem_nil p)
  | cons a as ih =>
    intro ⟨p, hp, hpf⟩
    by_cases ha : isFile a = true
    · have hpas : p ∈ as := by
        cases List.mem_cons.mp hp with
        | inl he => rw [he] at hpf; rw [ha] at hpf; cases hpf
        | inr h => exact h
      obtain ⟨q, hq, hqf, heq⟩ := ih ⟨p, hpas, hpf⟩
      refine ⟨q, List.mem_cons_of_mem a hq, hqf, ?_⟩
      unfold addImages
      rw [if_pos ha, heq]
    · have ha' : isFile a = false := Bool.of_not_eq_true ha
      refine ⟨a, List.mem_cons_self a as, ha', ?_⟩
      unfold addImages
      rw [if_neg (by rw [ha']; exact Bool.false_ne_true)]

/- ----------------------------------------------------------------------
Claim theorems.
---------------------------------------------------------------------- -/

/-- C1, counterexample: with `supportsVision = false`, a non-empty image-path
list whose single entry does not exist makes `_prepare_prompt` return
normally (no `FileNotFoundError` at all), refuting the claim that existence
is validated regardless of vision support. -/
theorem c1_counterexample :
    prepare_prompt "sys" "check" false (fun _ => false) ["missing.png"]
      = Except.ok [⟨"user", [ContentItem.text "sys", ContentItem.text "check"]⟩] := by
  rfl

/-- C1, amended: path validation in `_prepare_prompt` happens only when the
platform supports vision (and the path list is non-empty).  With
`supportsVision = false` no path is checked and the message carries zero
image blocks; with `supportsVision = true` a missing path fails with
`FileNotFoundError` naming a missing path, and all-existing paths are
appended in order. -/
theorem c1_validation_gated_by_vision (sp instr : String) (isFile : String → Bool)
    (paths : List String) :
    prepare_prompt sp instr false isFile paths
      = Except.ok [⟨"user", [ContentItem.text sp, ContentItem.text instr]⟩]
  ∧ ((∃ p ∈ paths, isFile p = false) →
      ∃ q ∈ paths, isFile q = false ∧
        prepare_prompt sp instr true isFile paths = Except.error ("Image not found: " ++ q))
  ∧ ((∀ p ∈ paths, isFile p = true) →
      prepare_prompt sp instr true isFile paths
        = Except.ok [⟨"user", [ContentItem.text sp, ContentItem.text instr]
            ++ paths.map ContentItem.image⟩]) := by
  refine ⟨?_, ?_, ?_⟩
  · unfold prepare_prompt
    rw [if_neg (fun hc => Bool.false_ne_true hc.2)]
  · intro ⟨p, hp, hpf⟩
    obtain ⟨q, hq, hqf, heq⟩ := addImages_err isFile paths ⟨p, hp, hpf⟩
    refine ⟨q, hq, hqf, ?_⟩
    have hne : paths ≠ [] := by
      intro he
      rw [he] at hp
      exact List.not_mem_nil p hp
    unfold prepare_prompt
    rw [if_pos ⟨hne, rfl⟩, heq]
  · intro h
    by_cases hps : paths = []
    · subst hps
      unfold prepare_prompt
      rw [if_neg (fun hc => hc.1 rfl)]
      rfl
    · unfold prepare_prompt
      rw [if_pos ⟨hps, rfl⟩, addImages_ok isFile paths h]

/-- C1, witness for the amended theorem: with vision on, an existing path is
validated and appended. -/
theorem c1_witness :
    prepare_prompt "s" "i" true (fun _ => true) ["a.png"]
      = Except.ok [⟨"user", [ContentItem.text "s", ContentItem.text "i"]
          ++ (["a.png"].map ContentItem.image)⟩] :=
  (c1_validation_gated_by_vision "s" "i" (fun _ => true) ["a.png"]).2.2
    (fun _ _ => rfl)

/-- C2, counterexample: `max_chars = 2` and one PDF page of text `"a bc"`.
The hard-cut accumulated text is `"a "` (2 characters) but the emitted body
is its `strip()`, `"a"` — 1 character, not exactly `max_chars` — refuting
"a body that is the accumulated text hard-cut to exactly max_chars
characters". -/
theorem c2_counterexample :
    prepare_attachment_content ⟨false, 100, 2, 3⟩ ⟨fun _ => "", fun _ => ""⟩
        ⟨"f.pdf", [], some ["a bc"], none, "T"⟩
      = [ContentItem.text "ATTACHMENT: f.pdf (mime: application/pdf, size: 0 bytes, format: pdf text, truncated)\na"]
    ∧ pyTake (pyJoin "\n" (collectChunks 2 ["a bc"] 0)) 2 = "a "
    ∧ ("a" : String).data.length ≠ 2 := by
  decide

/-- C2, amended: when the joined extracted text of a PDF overflows
`max_chars` (and the cut text is not all whitespace), the result is one
`"pdf text"` block with the truncation flag set whose body is the hard-cut
text additionally stripped of leading and trailing whitespace — hence at
most, but not always exactly, `max_chars` characters. -/
theorem c2_pdf_text_truncated_strip (sv : Bool) (mb mc pmp : Nat) (C : Codec)
    (path td : String) (bytes : List Nat) (pages : List String) (pp : Option Nat)
    (hext : pyLower (splitext_ext path) = ".pdf")
    (hlen : mc < (pyJoin "\n" (collectChunks mc pages 0)).data.length)
    (hbody : pyStrip (pyTake (pyJoin "\n" (collectChunks mc pages 0)) mc) ≠ "") :
    prepare_attachment_content ⟨sv, mb, mc, pmp⟩ C ⟨path, bytes, some pages, pp, td⟩
      = [ContentItem.text (format_attachment_header (basename path) "application/pdf"
          bytes.length "pdf text" true
        ++ pyStrip (pyTake (pyJoin "\n" (collectChunks mc pages 0)) mc))] := by
  have h := prepare_pdf_text_truncated_branch ⟨sv, mb, mc, pmp⟩ C
    ⟨path, bytes, some pages, pp, td⟩ pages hext rfl hlen hbody
  rw [hext] at h
  exact h

/-- C2, witness for the amended theorem: `max_chars = 2`, one page `"abcd"`,
body `"ab"`. -/
theorem c2_witness :
    prepare_attachment_content ⟨false, 100, 2, 3⟩ ⟨fun _ => "", fun _ => ""⟩
        ⟨"g.pdf", [], some ["abcd"], none, "T"⟩
      = [ContentItem.text (format_attachment_header (basename "g.pdf") "application/pdf"
          ([] : List Nat).length "pdf text" true
        ++ pyStrip (pyTake (pyJoin "\n" (collectChunks 2 ["abcd"] 0)) 2))] :=
  c2_pdf_text_truncated_strip false 100 2 3 ⟨fun _ => "", fun _ => ""⟩
    "g.pdf" "T" [] ["abcd"] none (by decide) (by decide) (by decide)

/-- C3: image content only reaches the wire when vision is supported.  With
`supportsVision = false`, `_format_messages_for_openai` emits no `image_url`
entry at all (image items are dropped, not converted to text); any
`image_url` entry in a rendering implies vision was supported; and with
vision unsupported `prepare_attachment_content` emits no image block
either. -/
theorem c3_image_blocks_require_vision (detail : Option String) (encode : String → String)
    (msgs : List Message) (mb mc pmp : Nat) (C : Codec) (f : FileModel) :
    (∀ wm ∈ format_messages_for_openai false detail encode msgs,
       ∀ it ∈ wm.content, ∀ u d, it ≠ WireItem.image_url u d)
  ∧ (∀ sv : Bool, ∀ wm ∈ format_messages_for_openai sv detail encode msgs,
       ∀ it ∈ wm.content, (∃ u d, it = WireItem.image_url u d) → sv = true)
  ∧ (∀ it ∈ prepare_attachment_content ⟨false, mb, mc, pmp⟩ C f,
       ∀ p, it ≠ ContentItem.image p) := by
  refine ⟨?_, ?_, ?_⟩
  · intro wm hwm it hit u d
    obtain ⟨ci, hci⟩ := mem_format_messages false detail encode msgs wm hwm it hit
    rcases format_item_spec false detail encode ci it hci with ⟨t, rfl⟩ | ⟨hsv, _⟩
    · exact fun he => WireItem.noConfusion he
    · exact absurd hsv Bool.false_ne_true
  · intro sv wm hwm it hit hex
    obtain ⟨u, d, he⟩ := hex
    obtain ⟨ci, hci⟩ := mem_format_messages sv detail encode msgs wm hwm it hit
    rcases format_item_spec sv detail encode ci it hci with ⟨t, ht⟩ | ⟨hsv, _⟩
    · rw [he] at ht
      exact WireItem.noConfusion ht
    · exact hsv
  · intro it hit p
    obtain ⟨t, rfl⟩ := attachment_text_only_without_vision mb mc pmp C f it hit
    exact fun he => ContentItem.noConfusion he

/-- C3, witness: a message with an image item and a text item, rendered with
vision off, keeps only the text entry. -/
theorem c3_witness : WireItem.text "hi" ≠ WireItem.image_url "u" none :=
  (c3_image_blocks_require_vision none (fun _ => "")
      [⟨"user", [ContentItem.image "a.png", ContentItem.text "hi"]⟩]
      1 1 1 ⟨fun _ => "", fun _ => ""⟩ ⟨"x", [], none, none, "T"⟩).1
    ⟨"user", [WireItem.text "hi"]⟩ (by decide) (WireItem.text "hi") (by decide) "u" none

/-- C4: a response without the literal `"RESULT:"` marker parses to the
failure token `"fail"` with the whole raw text as explanation, and
`_assert_result` treats it as `Fail` — unparseable responses never pass. -/
theorem c4_unparseable_fails_closed (response : String)
    (h : splitOnce response "RESULT:" = none) :
    extract_result_and_explanation_from_response response = ("fail", response)
    ∧ assert_result_outcome response = Outcome.Fail := by
  have he : extract_result_and_explanation_from_response response = ("fail", response) := by
    unfold extract_result_and_explanation_from_response
    rw [h]
  refine ⟨he, ?_⟩
  unfold assert_result_outcome
  rw [he]
  exact if_neg (fun hc => absurd hc.2 (show pyLower "fail" ≠ "pass" by decide))

/-- C4, witness: the spec's own example `"no markers here"`. -/
theorem c4_witness :
    extract_result_and_explanation_from_response "no markers here" = ("fail", "no markers here")
    ∧ assert_result_outcome "no markers here" = Outcome.Fail :=
  c4_unparseable_fails_closed "no markers here" (by decide)

/-- The verdict is `Pass` exactly when the extracted outcome token lowers to
`"pass"` (the non-emptiness test in the source is subsumed: the empty token
lowers to `""`). -/
theorem assert_result_outcome_pass_iff (response tok expl : String)
    (h : extract_result_and_explanation_from_response response = (tok, expl)) :
    assert_result_outcome response = Outcome.Pass ↔ pyLower tok = "pass" := by
  unfold assert_result_outcome
  rw [h]
  constructor
  · intro hp
    by_cases hc : (tok, expl).1 ≠ "" ∧ pyLower (tok, expl).1 = "pass"
    · exact hc.2
    · rw [if_neg hc] at hp
      exact Outcome.noConfusion hp
  · intro hl
    have hne : (tok, expl).1 ≠ "" := by
      intro he0
      rw [show ((tok, expl).1 : String) = tok from rfl] at he0
      rw [he0] at hl
      exact absurd hl (by decide)
    rw [if_pos ⟨hne, hl⟩]

/-- C5: a response containing `"RESULT:"` but no `"EXPLANATION:"` after it
yields the trimmed remainder as outcome token and the full raw text as
explanation; the token is matched case-insensitively against `"pass"`
(anything else, the empty token included, fails), and in particular
`"RESULT: PASS"` passes with explanation `"RESULT: PASS"`. -/
theorem c5_result_without_explanation (response before after_result : String)
    (h1 : splitOnce response "RESULT:" = some (before, after_result))
    (h2 : splitOnce (pyStrip after_result) "EXPLANATION:" = none) :
    extract_result_and_explanation_from_response response = (pyStrip after_result, response)
  ∧ (assert_result_outcome response = Outcome.Pass ↔ pyLower (pyStrip after_result) = "pass")
  ∧ extract_result_and_explanation_from_response "RESULT: PASS" = ("PASS", "RESULT: PASS")
  ∧ assert_result_outcome "RESULT: PASS" = Outcome.Pass := by
  have he : extract_result_and_explanation_from_response response = (pyStrip after_result, response) := by
    unfold extract_result_and_explanation_from_response
    rw [h1]
    show (match splitOnce (pyStrip after_result) "EXPLANATION:" with
      | none => (pyStrip (pyStrip after_result), response)
      | some (result_part, explanation_part) => (pyStrip result_part, pyStrip explanation_part))
      = (pyStrip after_result, response)
    rw [h2]
    show (pyStrip (pyStrip after_result), response) = (pyStrip after_result, response)
    rw [pyStrip_idem]
  exact ⟨he, assert_result_outcome_pass_iff response (pyStrip after_result) response he,
    by decide, by decide⟩

/-- C5, witness: `"RESULT: ok"` has the marker but no explanation. -/
theorem c5_witness :
    extract_result_and_explanation_from_response "RESULT: ok" = (pyStrip " ok", "RESULT: ok")
  ∧ (assert_result_outcome "RESULT: ok" = Outcome.Pass ↔ pyLower (pyStrip " ok") = "pass")
  ∧ extract_result_and_explanation_from_response "RESULT: PASS" = ("PASS", "RESULT: PASS")
  ∧ assert_result_outcome "RESULT: PASS" = Outcome.Pass :=
  c5_result_without_explanation "RESULT: ok" "" " ok" (by decide) (by decide)

/-- C6: a non-PDF file longer than `max_bytes` yields a truncated header and
a body of exactly the first `max_bytes` bytes decoded with lossy UTF-8
(`Codec.decode`); a file within the budget yields an untruncated header and
the full contents decoded. -/
theorem c6_text_file_byte_budget (sv : Bool) (mb mc pmp : Nat) (C : Codec)
    (path td : String) (bytes : List Nat) (pt : Option (List String)) (pp : Option Nat)
    (hext : pyLower (splitext_ext path) ≠ ".pdf") :
    (mb < bytes.length →
      prepare_attachment_content ⟨sv, mb, mc, pmp⟩ C ⟨path, bytes, pt, pp, td⟩
        = [ContentItem.text (format_attachment_header (basename path)
            (guess_mime_type (pyLower (splitext_ext path))) bytes.length "text" true
          ++ C.decode (bytes.take mb))])
  ∧ (bytes.length ≤ mb →
      prepare_attachment_content ⟨sv, mb, mc, pmp⟩ C ⟨path, bytes, pt, pp, td⟩
        = [ContentItem.text (format_attachment_header (basename path)
            (guess_mime_type (pyLower (splitext_ext path))) bytes.length "text" false
          ++ C.decode bytes)]) := by
  have h : prepare_attachment_content ⟨sv, mb, mc, pmp⟩ C ⟨path, bytes, pt, pp, td⟩
      = [ContentItem.text (format_attachment_header (basename path)
          (guess_mime_type (pyLower (splitext_ext path))) bytes.length "text"
          (decide (mb < bytes.length))
        ++ C.decode (bytes.take mb))] :=
    prepare_text_branch ⟨sv, mb, mc, pmp⟩ C ⟨path, bytes, pt, pp, td⟩ hext
  constructor
  · intro hlt
    rw [h, decide_eq_true hlt]
  · intro hle
    rw [h, decide_eq_false (Nat.not_lt.mpr hle), List.take_of_length_le hle]

/-- C6, witness: 3 bytes against `max_bytes = 2`. -/
theorem c6_witness :
    prepare_attachment_content ⟨false, 2, 9, 3⟩ ⟨fun bs => toString bs.length, fun _ => ""⟩
        ⟨"notes.txt", [104, 105, 106], none, none, "T"⟩
      = [ContentItem.text (format_attachment_header (basename "notes.txt")
          (guess_mime_type (pyLower (splitext_ext "notes.txt"))) ([104, 105, 106] : List Nat).length "text" true
        ++ (⟨fun bs => toString bs.length, fun _ => ""⟩ : Codec).decode (([104, 105, 106] : List Nat).take 2))] :=
  (c6_text_file_byte_budget false 2 9 3 ⟨fun bs => toString bs.length, fun _ => ""⟩
    "notes.txt" "T" [104, 105, 106] none none (by decide)).1 (by decide)

/-- C7: a PDF with no usable extracted text, vision supported and a working
renderer yields kind `"pdf images"` with truncation flag `false`: one summary
text block stating the rendered page count, then exactly one image block per
rendered page in page order, the page count capped at `pdf_max_pages`. -/
theorem c7_pdf_rasterization (mb mc pmp : Nat) (C : Codec) (path td : String)
    (bytes : List Nat) (pt : Option (List String)) (n : Nat)
    (hext : pyLower (splitext_ext path) = ".pdf")
    (hnotext : pyStrip (read_pdf_text mc pt).1 = "")
    (hn : 0 < min n pmp) :
    prepare_attachment_content ⟨true, mb, mc, pmp⟩ C ⟨path, bytes, pt, some n, td⟩
      = ContentItem.text (format_attachment_header (basename path)
          (guess_mime_type (pyLower (splitext_ext path))) bytes.length "pdf images" false
        ++ "[PDF rendered to " ++ toString (min n pmp) ++ " images]")
        :: (List.range (min n pmp)).map
            (fun index => ContentItem.image (td ++ "/pdf_page_" ++ toString (index + 1) ++ ".png")) :=
  prepare_pdf_images_branch ⟨true, mb, mc, pmp⟩ C ⟨path, bytes, pt, some n, td⟩ n
    hext hnotext rfl rfl hn

/-- C7, witness: a 5-page PDF with empty extraction, capped at 2 pages. -/
theorem c7_witness :
    prepare_attachment_content ⟨true, 9, 5, 2⟩ ⟨fun _ => "", fun _ => ""⟩
        ⟨"doc.pdf", [7], some [], some 5, "T"⟩
      = ContentItem.text (format_attachment_header (basename "doc.pdf")
          (guess_mime_type (pyLower (splitext_ext "doc.pdf"))) ([7] : List Nat).length "pdf images" false
        ++ "[PDF rendered to " ++ toString (min 5 2) ++ " images]")
        :: (List.range (min 5 2)).map
            (fun index => ContentItem.image ("T" ++ "/pdf_page_" ++ toString (index + 1) ++ ".png")) :=
  c7_pdf_rasterization 9 5 2 ⟨fun _ => "", fun _ => ""⟩ "doc.pdf" "T" [7] (some []) 5
    (by decide) (by decide) (by decide)

/-- C8: when both PDF text extraction and rasterization fail (library
missing or raising — modelled by `pdfText = none`, `pdfPages = none`), no
error escapes: the call falls through to a single `"base64"` text block
holding the base64 encoding of the raw bytes cut to the `max_bytes` budget.
Moreover the result of `prepare_attachment_content` is never empty. -/
theorem c8_extraction_failure_falls_back (sv : Bool) (mb mc pmp : Nat) (C : Codec)
    (path td : String) (bytes : List Nat)
    (hext : pyLower (splitext_ext path) = ".pdf") :
    prepare_attachment_content ⟨sv, mb, mc, pmp⟩ C ⟨path, bytes, none, none, td⟩
      = [ContentItem.text (format_attachment_header (basename path)
          (guess_mime_type (pyLower (splitext_ext path))) bytes.length "base64"
          (decide (mb < bytes.length))
        ++ C.b64 (bytes.take mb))]
  ∧ (∀ (P : AttachmentProcessor) (C2 : Codec) (f : FileModel),
      prepare_attachment_content P C2 f ≠ []) := by
  constructor
  · exact prepare_base64_branch ⟨sv, mb, mc, pmp⟩ C ⟨path, bytes, none, none, td⟩ hext
      (fun hc => Bool.false_ne_true hc.1)
      (by cases sv <;> rfl)
  · exact fun P C2 f => prepare_attachment_content_ne_nil P C2 f

/-- C8, witness: a 3-byte PDF under `max_bytes = 2` with failing extraction
and rendering. -/
theorem c8_witness :
    prepare_attachment_content ⟨true, 2, 9, 3⟩ ⟨fun _ => "", fun bs => toString bs.length⟩
        ⟨"b.pdf", [1, 2, 3], none, none, "T"⟩
      = [ContentItem.text (format_attachment_header (basename "b.pdf")
          (guess_mime_type (pyLower (splitext_ext "b.pdf"))) ([1, 2, 3] : List Nat).length "base64"
          (decide (2 < ([1, 2, 3] : List Nat).length))
        ++ (⟨fun _ => "", fun bs => toString bs.length⟩ : Codec).b64 (([1, 2, 3] : List Nat).take 2))] :=
  (c8_extraction_failure_falls_back true 2 9 3 ⟨fun _ => "", fun bs => toString bs.length⟩
    "b.pdf" "T" [1, 2, 3] (by decide)).1

/-- C9, counterexample: a 2-page PDF with no extractable text, vision on and
`pdf_max_pages = 1` hits the page budget (2 > 1) yet the emitted header
carries no `truncated` marker, refuting "the truncated marker appears iff a
budget was hit". -/
theorem c9_counterexample :
    prepare_attachment_content ⟨true, 100, 100, 1⟩ ⟨fun _ => "", fun _ => ""⟩
        ⟨"f.pdf", [], some [], some 2, "T"⟩
      = [ContentItem.text "ATTACHMENT: f.pdf (mime: application/pdf, size: 0 bytes, format: pdf images)\n[PDF rendered to 1 images]",
         ContentItem.image "T/pdf_page_1.png"]
    ∧ pyContains "ATTACHMENT: f.pdf (mime: application/pdf, size: 0 bytes, format: pdf images)\n[PDF rendered to 1 images]" "truncated" = false
    ∧ 1 < 2 := by
  decide

/-- C9, amended: every result starts with exactly one text header block
`ATTACHMENT: <filename> (mime: <m>, size: <n> bytes, format: <kind>[,
truncated])` followed by a newline, where the size is always the original
file byte size and the MIME type comes from the fixed table (default
`text/plain`); the truncated marker reflects the byte budget for the
`"text"` and `"base64"` kinds and the `max_chars` overflow of the joined
extracted text for the `"pdf text"` kind, but the `"pdf images"` kind
always reports untruncated, even when the page cap was hit. -/
theorem c9_header_first_original_size (P : AttachmentProcessor) (C : Codec) (f : FileModel) :
    (∃ kind trunc body rest,
      prepare_attachment_content P C f
        = ContentItem.text (format_attachment_header (basename f.path)
            (guess_mime_type (pyLower (splitext_ext f.path))) f.bytes.length kind trunc ++ body)
          :: rest)
  ∧ (pyLower (splitext_ext f.path) ≠ ".pdf" →
      prepare_attachment_content P C f
        = [ContentItem.text (format_attachment_header (basename f.path)
            (guess_mime_type (pyLower (splitext_ext f.path))) f.bytes.length "text"
            (decide (P.max_bytes < f.bytes.length)) ++ C.decode (f.bytes.take P.max_bytes))])
  ∧ (∀ n : Nat, pyLower (splitext_ext f.path) = ".pdf" →
      pyStrip (read_pdf_text P.max_chars f.pdfText).1 = "" →
      P.supports_vision = true → f.pdfPages = some n → 0 < min n P.pdf_max_pages →
      prepare_attachment_content P C f
        = ContentItem.text (format_attachment_header (basename f.path)
            (guess_mime_type (pyLower (splitext_ext f.path))) f.bytes.length "pdf images" false
          ++ "[PDF rendered to " ++ toString (min n P.pdf_max_pages) ++ " images]")
          :: (List.range (min n P.pdf_max_pages)).map
              (fun index => ContentItem.image (f.tempDir ++ "/pdf_page_" ++ toString (index + 1) ++ ".png")))
  ∧ (∀ pages : List String, pyLower (splitext_ext f.path) = ".pdf" →
      f.pdfText = some pages →
      pyStrip (read_pdf_text P.max_chars f.pdfText).1 ≠ "" →
      prepare_attachment_content P C f
        = [ContentItem.text (format_attachment_header (basename f.path)
            (guess_mime_type (pyLower (splitext_ext f.path))) f.bytes.length
            "pdf text"
            (decide (P.max_chars < (pyJoin "\n" (collectChunks P.max_chars pages 0)).data.length))
          ++ pyStrip (read_pdf_text P.max_chars f.pdfText).1)])
  ∧ (pyLower (splitext_ext f.path) = ".pdf" →
      ¬((read_pdf_text P.max_chars f.pdfText).2.2
        ∧ pyStrip (read_pdf_text P.max_chars f.pdfText).1 ≠ "") →
      (if P.supports_vision then
        render_pdf_to_images P.pdf_max_pages f.pdfPages f.tempDir else []) = [] →
      prepare_attachment_content P C f
        = [ContentItem.text (format_attachment_header (basename f.path)
            (guess_mime_type (pyLower (splitext_ext f.path))) f.bytes.length "base64"
            (decide (P.max_bytes < f.bytes.length))
          ++ C.b64 (f.bytes.take P.max_bytes))]) := by
  refine ⟨?_, fun hne => prepare_text_branch P C f hne,
    fun n h1 h2 h3 h4 h5 => prepare_pdf_images_branch P C f n h1 h2 h3 h4 h5,
    fun pages h1 h2 h3 => prepare_pdf_text_branch P C f pages h1 h2 h3,
    fun h1 h2 h3 => prepare_base64_branch P C f h1 h2 h3⟩
  by_cases h1 : pyLower (splitext_ext f.path) = ".pdf"
  · by_cases h2 : (read_pdf_text P.max_chars f.pdfText).2.2
        ∧ pyStrip (read_pdf_text P.max_chars f.pdfText).1 ≠ ""
    · refine ⟨"pdf text", (read_pdf_text P.max_chars f.pdfText).2.1,
        pyStrip (read_pdf_text P.max_chars f.pdfText).1, [], ?_⟩
      unfold prepare_attachment_content
      rw [if_pos h1, if_pos h2]
    · by_cases h3 : (if P.supports_vision then
          render_pdf_to_images P.pdf_max_pages f.pdfPages f.tempDir else []) ≠ []
      · refine ⟨"pdf images", false,
          "[PDF rendered to "
            ++ toString (if P.supports_vision then
                render_pdf_to_images P.pdf_max_pages f.pdfPages f.tempDir else []).length
            ++ " images]",
          (if P.supports_vision then
              render_pdf_to_images P.pdf_max_pages f.pdfPages f.tempDir else []).map
            ContentItem.image, ?_⟩
        unfold prepare_attachment_content
        rw [if_pos h1, if_neg h2, if_pos h3]
        simp only [String.append_assoc]
      · refine ⟨"base64", (decide (P.max_bytes < f.bytes.length)),
          C.b64 (f.bytes.take P.max_bytes), [], ?_⟩
        exact prepare_base64_branch P C f h1 h2 (not_not.mp h3)
  · exact ⟨"text", decide (P.max_bytes < f.bytes.length), C.decode (f.bytes.take P.max_bytes), [],
      prepare_text_branch P C f h1⟩

/-- C9, witness for the amended theorem: the text-branch conjunct at a
concrete file. -/
theorem c9_witness :
    prepare_attachment_content ⟨false, 9, 9, 3⟩ ⟨fun _ => "body", fun _ => ""⟩
        ⟨"a.log", [7, 8], none, none, "T"⟩
      = [ContentItem.text (format_attachment_header (basename "a.log")
          (guess_mime_type (pyLower (splitext_ext "a.log")))
          (⟨"a.log", [7, 8], none, none, "T"⟩ : FileModel).bytes.length "text"
          (decide ((⟨false, 9, 9, 3⟩ : AttachmentProcessor).max_bytes
            < (⟨"a.log", [7, 8], none, none, "T"⟩ : FileModel).bytes.length))
        ++ (⟨fun _ => "body", fun _ => ""⟩ : Codec).decode
            ((⟨"a.log", [7, 8], none, none, "T"⟩ : FileModel).bytes.take 9))] :=
  (c9_header_first_original_size ⟨false, 9, 9, 3⟩ ⟨fun _ => "body", fun _ => ""⟩
    ⟨"a.log", [7, 8], none, none, "T"⟩).2.1 (by decide)

/-- C10: `GenAI.__init__` forwards its own `image_detail` default (`None`)
explicitly, so the platform's `detail` ends up `None`, not the `AIPlatform`
class default `"high"`; and every `image_url` wire entry rendered under a
`None` detail carries `detail = None`. -/
theorem c10_genai_detail_is_none :
    GenAI_init (some Ollama) none none none GenAI_default_image_detail
      = Except.ok ⟨some "http://localhost:11434/v1", some "qwen3-coder:480b-cloud",
          none, some "ollama", true⟩
  ∧ GenAI_default_image_detail ≠ AIPlatform_DEFAULT_IMG_DETAIL
  ∧ AIPlatform_DEFAULT_IMG_DETAIL = some "high"
  ∧ (∀ (sv : Bool) (encode : String → String) (msgs : List Message),
      ∀ wm ∈ format_messages_for_openai sv none encode msgs,
      ∀ it ∈ wm.content, ∀ u d, it = WireItem.image_url u d → d = none) := by
  refine ⟨rfl, by decide, rfl, ?_⟩
  intro sv encode msgs wm hwm it hit u d he
  obtain ⟨ci, hci⟩ := mem_format_messages sv none encode msgs wm hwm it hit
  rcases format_item_spec sv none encode ci it hci with ⟨t, ht⟩ | ⟨_, u2, ht⟩
  · rw [he] at ht
    exact WireItem.noConfusion ht
  · rw [he] at ht
    rw [WireItem.image_url.injEq] at ht
    exact ht.2

/-- C10, witness: the concrete configuration plus one rendered image entry. -/
theorem c10_witness :
    GenAI_init (some Ollama) none none none GenAI_default_image_detail
      = Except.ok ⟨some "http://localhost:11434/v1", some "qwen3-coder:480b-cloud",
          none, some "ollama", true⟩
  ∧ (none : Option String) = none :=
  ⟨c10_genai_detail_is_none.1,
   c10_genai_detail_is_none.2.2.2 true (fun _ => "u")
     [⟨"user", [ContentItem.image "a.png"]⟩] ⟨"user", [WireItem.image_url "u" none]⟩
     (by decide) (WireItem.image_url "u" none) (by decide) "u" none rfl⟩
